import Mathlib

/-!
Verification development for the `python-github-blogs` automated blogging
scripts.  The Python sources are shallowly embedded: pure string
manipulations become Lean functions on `String` / `List Char`, calls to
external services (LLM providers, the GitHub contents API, the markdown
renderer, `datetime.fromisoformat`) become explicitly passed oracles, and
`try`/`except` control flow becomes `Option` / `Except` / outcome types.
-/

/- ### Python string primitives -/

/-- Embedding of Python `s.replace('.md', rep)` (as used in
`core/parser.py` lines 14 and 28): leftmost, non-overlapping replacement of
every occurrence of the three-character substring `".md"` by `rep`,
specialised to this pattern so that the recursion is structural. -/
def replaceMD (rep : List Char) : List Char → List Char
  | [] => []
  | [c] => [c]
  | [c1, c2] => [c1, c2]
  | c1 :: c2 :: c3 :: rest =>
    if c1 = '.' && c2 = 'm' && c3 = 'd' then rep ++ replaceMD rep rest
    else c1 :: replaceMD rep (c2 :: c3 :: rest)

/-- Whether the substring `".md"` occurs anywhere in the list. -/
def hasMD : List Char → Bool
  | c1 :: c2 :: c3 :: rest => (c1 = '.' && c2 = 'm' && c3 = 'd') || hasMD (c2 :: c3 :: rest)
  | _ => false

/-- String-level wrapper for `replaceMD`. -/
def replaceMDStr (rep s : String) : String := String.mk (replaceMD rep.data s.data)

/-- Embedding of Python `str.lower` for the ASCII range (the only range the
slug/filters below can keep): uppercase A–Z maps to a–z, everything else is
unchanged. -/
def pyLowerC (c : Char) : Char :=
  if 65 ≤ c.toNat && c.toNat ≤ 90 then Char.ofNat (c.toNat + 32) else c

/-- Python regex `\s` (ASCII): space, tab, newline, carriage return,
vertical tab, form feed. -/
def pySpace (c : Char) : Bool :=
  c = ' ' || c = '\t' || c = '\n' || c = '\r' || c = '\x0b' || c = '\x0c'

/-- Characters kept by the character classes `[^a-z0-9-]` (main.py:473) and
`[^a-z0-9s-]` (autoblog.py:165); the two classes keep the same set since
`s` already lies in `a-z`. -/
def slugKeep (c : Char) : Bool :=
  (97 ≤ c.toNat && c.toNat ≤ 122) || (48 ≤ c.toNat && c.toNat ≤ 57) || c = '-'

/-- Embedding of Python `re.sub(pat+, r, s)` for a character class `p`:
every maximal run of characters satisfying `p` is replaced by the single
character `r`.  `inRun` records whether the previous character belonged to
a run. -/
def collapseGo (p : Char → Bool) (r : Char) (inRun : Bool) : List Char → List Char
  | [] => []
  | c :: cs =>
    if p c then
      if inRun then collapseGo p r true cs
      else r :: collapseGo p r true cs
    else c :: collapseGo p r false cs

/-- Characters collapsed by `re.sub(r'[s-]+', '-', ·)` in autoblog.py:165
(note the missing backslash in the source: the class is literal `s` and
`-`, not whitespace). -/
def sOrDash (c : Char) : Bool := c = 's' || c = '-'

/-- Slug derivation of main.py:473:
`re.sub(r'[^a-z0-9-]', '', re.sub(r'\s+', '-', new_title.lower()))`. -/
def cleanSlug (s : List Char) : List Char :=
  (collapseGo pySpace '-' false (s.map pyLowerC)).filter slugKeep

/-- Slug derivation of autoblog.py:165:
`re.sub(r'[s-]+', '-', re.sub(r'[^a-z0-9s-]', '', headline.lower()))`. -/
def autoblogSlug (s : List Char) : List Char :=
  collapseGo sOrDash '-' false ((s.map pyLowerC).filter slugKeep)

/- ### core/parser.py : ContentParser -/

/-- Front matter of a markdown document as returned by
`frontmatter.loads`: each of the four fields the parser reads may be
missing.  `date` is kept as the raw string value. -/
structure FrontMeta where
  title : Option String := none
  date : Option String := none
  tags : Option (List String) := none
  summary : Option String := none
deriving DecidableEq

/-- The dictionary returned by `ContentParser.parse`.  Dates are modelled
by their ISO strings (`datetime.fromisoformat` of a valid string is the
denoted datetime; `isoformat` is its inverse). -/
structure PostData where
  title : String
  date : String
  slug : String
  content : String
  summary : String
  tags : List String
deriving DecidableEq

/-- Embedding of `ContentParser.parse` (core/parser.py lines 9–32).
`render` stands for `markdown.Markdown.convert`, `isoValid` for the domain
of `datetime.fromisoformat` (the `try`/bare-`except` around it becomes the
`if`), `now` for `datetime.now()` (in ISO form), and `meta`/`body` for the
output of `frontmatter.loads(raw_md)`. -/
def ContentParser.parse (render : String → String) (isoValid : String → Bool)
    (now : String) (meta : FrontMeta) (body : String) (filename : String) : PostData :=
  let title := meta.title.getD (replaceMDStr "" filename)
  let dateStr := meta.date.getD now
  let dateObj := if isoValid dateStr then dateStr else now
  let html := render body
  { title := title
  , date := dateObj
  , slug := replaceMDStr ".html" filename
  , content := html
  , summary := meta.summary.getD (html.take 200 ++ "...")
  , tags := meta.tags.getD [] }

/- ### autoblog.py : MultiAIClient -/

/-- Embedding of `MultiAIClient.generate` (autoblog.py lines 76–110).  The
configured providers are given as a priority-ordered list; each entry is
the outcome of that provider's API call: `some t` when the call returns
text `t`, `none` when it raises.  The loop returns the first success and
raises a generic exception after the list is exhausted. -/
def MultiAIClient.generate : List (Option String) → Except String String
  | [] => Except.error "Todas las IAs fallaron"
  | some t :: _ => Except.ok t
  | none :: ps => MultiAIClient.generate ps

/- ### main.py : MultiAIProvider -/

/-- The `self.clients` dictionary of `MultiAIProvider` (main.py lines
144–176): for each of the three possible keys, `none` means the provider
was not configured, `some o` means it is configured and its call would
yield outcome `o` (`some t` success, `none` exception). -/
structure MPClients where
  gemini : Option (Option String)
  openai : Option (Option String)
  anthropic : Option (Option String)
deriving DecidableEq

/-- Dictionary lookup `self.clients[m]` / `m in self.clients`. -/
def MPClients.lookup (c : MPClients) (m : String) : Option (Option String) :=
  if m = "gemini" then c.gemini
  else if m = "openai" then c.openai
  else if m = "anthropic" then c.anthropic
  else none

/-- The priority list built at main.py lines 184–187: the preferred name
first, then each configured provider name not already present, in the
fixed order gemini, openai, anthropic. -/
def priorityList (preferred : String) (c : MPClients) : List String :=
  let p1 := [preferred]
  let p2 := if c.gemini.isSome && !(p1.contains "gemini") then p1 ++ ["gemini"] else p1
  let p3 := if c.openai.isSome && !(p2.contains "openai") then p2 ++ ["openai"] else p2
  if c.anthropic.isSome && !(p3.contains "anthropic") then p3 ++ ["anthropic"] else p3

/-- The `for model in priority` loop of main.py lines 189–228: names not
in the clients dictionary are skipped, a successful call returns its text,
an exception records the failing model as `last_error` and advances; after
the loop an exception carrying `last_error` is raised. -/
def mpLoop (c : MPClients) : Option String → List String → Except (Option String) String
  | lastErr, [] => Except.error lastErr
  | lastErr, m :: ms =>
    match c.lookup m with
    | none => mpLoop c lastErr ms
    | some (some t) => Except.ok t
    | some none => mpLoop c (some m) ms

/-- Embedding of `MultiAIProvider.generate` (main.py lines 178–228). -/
def MultiAIProvider.generate (preferred : String) (c : MPClients) : Except (Option String) String :=
  mpLoop c none (priorityList preferred c)

/-- The provider outcomes actually consulted by `MultiAIProvider.generate`,
in order: the priority list resolved through the clients dictionary. -/
def resolvedOutcomes (preferred : String) (c : MPClients) : List (Option String) :=
  (priorityList preferred c).filterMap c.lookup

/- ### Base64 (Python base64.b64encode) -/

/-- The standard base64 alphabet. -/
def b64Alphabet : List Char :=
  "ABCDEFGHIJKLMNOPQRSTUVWXYZabcdefghijklmnopqrstuvwxyz0123456789+/".data

/-- Standard base64 encoding of a byte list, three bytes to four output
characters, padded with `=`. -/
def b64Chunks : List UInt8 → List Char
  | [] => []
  | [b1] =>
    [b64Alphabet.getD (b1.toNat / 4) 'A',
     b64Alphabet.getD (b1.toNat % 4 * 16) 'A', '=', '=']
  | [b1, b2] =>
    [b64Alphabet.getD (b1.toNat / 4) 'A',
     b64Alphabet.getD (b1.toNat % 4 * 16 + b2.toNat / 16) 'A',
     b64Alphabet.getD (b2.toNat % 16 * 4) 'A', '=']
  | b1 :: b2 :: b3 :: rest =>
    b64Alphabet.getD (b1.toNat / 4) 'A' ::
    b64Alphabet.getD (b1.toNat % 4 * 16 + b2.toNat / 16) 'A' ::
    b64Alphabet.getD (b2.toNat % 16 * 4 + b3.toNat / 64) 'A' ::
    b64Alphabet.getD (b3.toNat % 64) 'A' :: b64Chunks rest

/-- Embedding of Python `base64.b64encode(s.encode()).decode()`. -/
def b64encode (s : String) : String := String.mk (b64Chunks s.toUTF8.toList)

/- ### core/github_service.py and the autoblog.py PUT body -/

/-- JSON body of a `PUT /repos/{repo}/contents/{path}` request as the two
upload sites build it: commit message, base64 content, optional prior
version identifier `sha`, optional `branch`. -/
structure PutBody where
  message : String
  content : String
  sha : Option String
  branch : Option String
deriving DecidableEq

/-- Embedding of the body built by `GitHubManager.create_file`
(core/github_service.py lines 63–91) together with the `branch` field
added by `api_call` for non-main branches.  `existingSha` is the `sha`
field of the GET of the same path (`none` when the path does not exist);
`if sha:` is Python truthiness, so an empty string is not sent. -/
def GitHubManager.createFileBody (message content : String) (existingSha : Option String)
    (branch : String) : PutBody :=
  { message := message
  , content := b64encode content
  , sha := match existingSha with
      | some s => if s = "" then none else some s
      | none => none
  , branch := if branch = "main" then none else some branch }

/-- Embedding of the body built inline by `AutoBlogEngine.generate_content`
(autoblog.py lines 174–177) for its upload of a generated article: only a
commit message and base64 content, regardless of whether the path already
exists. -/
def generateContentBody (lang article : String) : PutBody :=
  { message := "cms: add " ++ lang ++ " content"
  , content := b64encode article
  , sha := none
  , branch := none }

/- ### main.py : AutoBlogEngine state and build_site -/

/-- The per-site state record of main.py `_load_state` (lines 292–296):
`{"processed_files": [], "last_build": None}`. -/
structure MainState where
  processed_files : List String
  last_build : Option String
deriving DecidableEq

/-- The state returned by `_load_state` when no state file exists. -/
def initialMainState : MainState := { processed_files := [], last_build := none }

/-- Outcome of one `requests.put` upload as seen through
`GitHubManager.create_file`: the call succeeds with status 200/201 (`ok`),
returns a non-2xx status so `create_file` returns `False` without raising
(`httpErr`), or the HTTP call raises and `api_call` re-raises (`exc`). -/
inductive UpOutcome
  | ok
  | httpErr
  | exc
deriving DecidableEq

/-- The file loop of `build_site` (main.py lines 526–534): for every
listed file whose name ends in `.md`, fetch its content
(`get_file_content`, `none` on a non-200 status, which makes the
subsequent parse raise) and parse it; any exception skips the file with a
bare `continue`.  Returns the post list in iteration order together with
the warnings logged inside the loop (the source logs none). -/
def scanFiles (fetch : String → Option String) (pR : String → String → Option PostData) :
    List (String × String) → List PostData × List String
  | [] => ([], [])
  | (name, url) :: rest =>
    let r := scanFiles fetch pR rest
    if List.isSuffixOf ".md".data name.data then
      match (fetch url).bind (fun raw => pR raw name) with
      | none => r
      | some p => (p :: r.1, r.2)
    else r

/-- Sort key of main.py line 540: `posts.sort(key=date, reverse=True)`,
a stable descending sort on the date, modelled by Mathlib's stable
insertion sort (CPython's sort is also stable). -/
def sortPosts (ps : List PostData) : List PostData :=
  List.insertionSort (fun a b : PostData => b.date ≤ a.date) ps

/-- `post['date'].strftime('%Y/%m')` on an ISO date string. -/
def dateYM (d : String) : String := d.take 4 ++ "/" ++ (d.drop 5).take 2

/-- Target path of a rendered post (main.py line 564). -/
def postPath (domain : String) (p : PostData) : String :=
  if domain ≠ "" then dateYM p.date ++ "/" ++ p.slug else p.slug

/-- The post-deploy loop of main.py lines 560–570, all inside one `try`:
each post's page is uploaded via `deploy_file`, which re-raises an
exception (`exc`) but ignores `create_file` returning `False`
(`httpErr`).  Returns the attempted paths in order, the paths whose upload
succeeded, and whether the loop was at by an exception. -/
def deployPosts (upload : String → UpOutcome) (domain : String) :
    List PostData → List String × List String × Bool
  | [] => ([], [], false)
  | p :: ps =>
    let path := postPath domain p
    match upload path with
    | UpOutcome.exc => ([path], [], true)
    | UpOutcome.ok =>
      let r := deployPosts upload domain ps
      (path :: r.1, path :: r.2.1, r.2.2)
    | UpOutcome.httpErr =>
      let r := deployPosts upload domain ps
      (path :: r.1, r.2.1, r.2.2)

/-- Observable result of one `build_site` run. -/
structure BuildOutcome where
  posts : List PostData
  attempts : List String
  uploaded : List String
  savedState : Bool
  finalState : MainState
  warnings : List String
deriving DecidableEq

/-- Embedding of `AutoBlogEngine.build_site` (main.py lines 512–589).
`state` is `self.state` as loaded by `_load_state`; `now` is
`datetime.now().isoformat()` at `_save_state` time; `fetch` and `pR` are
the oracles of the file loop; `upload` gives each PUT's outcome; `files`
is the listing returned by `get_files`.  Control flow: empty post list
returns early; an exception uploading the index or a post page returns
without saving state; an exception in the sitemap/RSS section is caught
with a warning (skipping the rest of that section) and `_save_state` still
runs, recording a new `last_build`.  Template rendering is assumed not to
raise. -/
def buildSite (state : MainState) (now domain : String)
    (fetch : String → Option String) (pR : String → String → Option PostData)
    (upload : String → UpOutcome) (files : List (String × String)) : BuildOutcome :=
  let scanned := scanFiles fetch pR files
  let posts := scanned.1
  if posts.isEmpty then
    { posts := [], attempts := [], uploaded := [], savedState := false
    , finalState := state, warnings := scanned.2 }
  else
    if upload "index.html" = UpOutcome.exc then
      { posts := posts, attempts := ["index.html"], uploaded := [], savedState := false
      , finalState := state, warnings := scanned.2 }
    else
      let idxUploaded := if upload "index.html" = UpOutcome.ok then ["index.html"] else []
      let d := deployPosts upload domain (sortPosts posts)
      if d.2.2 then
        { posts := posts, attempts := "index.html" :: d.1, uploaded := idxUploaded ++ d.2.1
        , savedState := false, finalState := state, warnings := scanned.2 }
      else
        let seoAttempts :=
          if upload "sitemap.xml" = UpOutcome.exc then ["sitemap.xml"]
          else ["sitemap.xml", "rss.xml"]
        let seoUploaded :=
          (if upload "sitemap.xml" = UpOutcome.ok then ["sitemap.xml"] else []) ++
          (if upload "sitemap.xml" ≠ UpOutcome.exc ∧ upload "rss.xml" = UpOutcome.ok
            then ["rss.xml"] else [])
        { posts := posts
        , attempts := "index.html" :: d.1 ++ seoAttempts
        , uploaded := idxUploaded ++ d.2.1 ++ seoUploaded
        , savedState := true
        , finalState := { state with last_build := some now }
        , warnings := scanned.2 }

/- ### CLI flags -/

/-- Long option strings registered by `argparse` in main.py `main`
(lines 592–599). -/
def mainPyFlags : List String := ["--blog", "--list", "--fetch", "--build", "--all"]

/-- Long option strings registered by `argparse` in autoblog.py `main`
(lines 189–193). -/
def autoblogPyFlags : List String := ["--fetch", "--build", "--incremental"]

/-- The six flags named by the specification. -/
def specFlags : List String :=
  ["--fetch", "--build", "--all", "--blog", "--list", "--incremental"]

/- ### Sanity examples for the primitives -/

example : replaceMDStr ".html" "a.md" = "a.html" := by decide
example : replaceMDStr "" "a.md.md" = "a" := by decide
example : replaceMDStr ".html" "My.mdPost.md" = "My.htmlPost.html" := by decide
example : cleanSlug "Hello,  World-3!".data = "hello-world-3".data := by decide
example : autoblogSlug "Ossify class".data = "o-ifycla-".data := by decide

/- ### Character-level helper lemmas -/

lemma pyLowerC_eq_self {c : Char} (h : c.toNat < 65 ∨ 90 < c.toNat) : pyLowerC c = c := by
  unfold pyLowerC
  rw [if_neg]
  simp only [Bool.and_eq_true, decide_eq_true_eq, not_and, not_le]
  omega

lemma slugKeep_spec {c : Char} (h : slugKeep c = true) :
    (97 ≤ c.toNat ∧ c.toNat ≤ 122) ∨ (48 ≤ c.toNat ∧ c.toNat ≤ 57) ∨ c = '-' := by
  simpa [slugKeep, or_assoc] using h

lemma slugKeep_pyLowerC {c : Char} (h : slugKeep c = true) : pyLowerC c = c := by
  rcases slugKeep_spec h with h1 | h1 | rfl
  · exact pyLowerC_eq_self (Or.inr (by omega))
  · exact pyLowerC_eq_self (Or.inl (by omega))
  · decide

lemma slugKeep_not_pySpace {c : Char} (h : slugKeep c = true) : pySpace c = false := by
  cases hp : pySpace c with
  | false => rfl
  | true =>
    exfalso
    simp only [pySpace, Bool.or_eq_true, decide_eq_true_eq] at hp
    rcases hp with ((((rfl | rfl) | rfl) | rfl) | rfl) | rfl <;> exact absurd h (by decide)

lemma slugKeep_not_upper {c : Char} (h : slugKeep c = true) :
    (65 ≤ c.toNat && c.toNat ≤ 90) = false := by
  rcases slugKeep_spec h with h1 | h1 | rfl
  · simp only [Bool.and_eq_false_iff, decide_eq_false_iff_not, not_le]; omega
  · simp only [Bool.and_eq_false_iff, decide_eq_false_iff_not, not_le]; omega
  · decide

/- ### Run-collapsing helper lemmas -/

lemma collapseGo_of_no {p : Char → Bool} {r : Char} :
    ∀ (l : List Char), (∀ c ∈ l, p c = false) → ∀ b, collapseGo p r b l = l := by
  intro l
  induction l with
  | nil => intro _ b; rfl
  | cons c cs ih =>
    intro h b
    have hc : p c = false := h c (by simp)
    simp only [collapseGo, hc, Bool.false_eq_true, if_false]
    rw [ih (fun x hx => h x (by simp [hx])) false]

lemma collapseGo_mem {p : Char → Bool} {r : Char} :
    ∀ (l : List Char) (b : Bool) (c : Char), c ∈ collapseGo p r b l → c = r ∨ c ∈ l := by
  intro l
  induction l with
  | nil => intro b c h; simp [collapseGo] at h
  | cons d ds ih =>
    intro b c h
    by_cases hd : p d = true
    · cases b with
      | true =>
        simp only [collapseGo, hd, if_true] at h
        rcases ih true c h with h1 | h1
        · exact Or.inl h1
        · exact Or.inr (by simp [h1])
      | false =>
        simp only [collapseGo, hd, if_true] at h
        rcases List.mem_cons.mp h with rfl | h1
        · exact Or.inl rfl
        · rcases ih true c h1 with h2 | h2
          · exact Or.inl h2
          · exact Or.inr (by simp [h2])
    · have hd' : p d = false := by simpa using hd
      simp only [collapseGo, hd', Bool.false_eq_true, if_false] at h
      rcases List.mem_cons.mp h with rfl | h1
      · exact Or.inr (by simp)
      · rcases ih false c h1 with h2 | h2
        · exact Or.inl h2
        · exact Or.inr (by simp [h2])

lemma collapseGo_idem {p : Char → Bool} {r : Char} (hpr : p r = true) :
    ∀ l : List Char,
      collapseGo p r false (collapseGo p r false l) = collapseGo p r false l ∧
      collapseGo p r true (collapseGo p r true l) = collapseGo p r true l := by
  intro l
  induction l with
  | nil => exact ⟨rfl, rfl⟩
  | cons c cs ih =>
    by_cases hc : p c = true
    · constructor
      · simp only [collapseGo, hc, if_true]
        show collapseGo p r false (r :: collapseGo p r true cs) = r :: collapseGo p r true cs
        simp only [collapseGo, hpr, if_true, Bool.false_eq_true, if_false]
        rw [ih.2]
      · simp only [collapseGo, hc, if_true]
        exact ih.2
    · have hc' : p c = false := by simpa using hc
      constructor
      · simp only [collapseGo, hc', Bool.false_eq_true, if_false]
        rw [ih.1]
      · simp only [collapseGo, hc', Bool.false_eq_true, if_false]
        show c :: collapseGo p r false (collapseGo p r false cs) = c :: collapseGo p r false cs
        rw [ih.1]

lemma cleanSlug_all_keep (s : List Char) : ∀ c ∈ cleanSlug s, slugKeep c = true := by
  intro c hc
  exact List.of_mem_filter hc

lemma autoblogSlug_all_keep (s : List Char) : ∀ c ∈ autoblogSlug s, slugKeep c = true := by
  intro c hc
  rcases collapseGo_mem _ _ _ hc with rfl | h1
  · decide
  · exact List.of_mem_filter h1

lemma map_pyLowerC_id {l : List Char} (h : ∀ c ∈ l, slugKeep c = true) :
    l.map pyLowerC = l := by
  rw [List.map_congr_left (fun c hc => slugKeep_pyLowerC (h c hc))]
  exact l.map_id

/- ### replaceMD helper lemmas -/

lemma replaceMD_no_occ (rep : List Char) :
    ∀ s : List Char, hasMD s = false → replaceMD rep s = s := by
  intro s
  induction s with
  | nil => intro _; rfl
  | cons c cs ih =>
    intro h
    rcases cs with _ | ⟨c2, cs2⟩
    · rfl
    rcases cs2 with _ | ⟨c3, cs3⟩
    · rfl
    have hu : hasMD (c :: c2 :: c3 :: cs3)
        = ((c = '.' && c2 = 'm' && c3 = 'd') || hasMD (c2 :: c3 :: cs3)) := rfl
    rw [hu] at h
    have h1 := (Bool.or_eq_false_iff.mp h).1
    have h2 := (Bool.or_eq_false_iff.mp h).2
    show (if (c = '.' && c2 = 'm' && c3 = 'd') = true then rep ++ replaceMD rep cs3
        else c :: replaceMD rep (c2 :: c3 :: cs3)) = c :: c2 :: c3 :: cs3
    rw [h1, if_neg (by simp)]
    rw [ih h2]

lemma replaceMD_stem_md (rep : List Char) :
    ∀ stem : List Char, hasMD stem = false →
      replaceMD rep (stem ++ ['.', 'm', 'd']) = stem ++ rep := by
  intro stem
  induction stem with
  | nil => intro _; simp [replaceMD]
  | cons c cs ih =>
    intro h
    rcases cs with _ | ⟨c2, cs2⟩
    · show (if (c = '.' && ('.' : Char) = 'm' && ('m' : Char) = 'd') = true
          then rep ++ replaceMD rep ['d'] else c :: replaceMD rep ['.', 'm', 'd'])
        = c :: rep
      rw [if_neg (by simp)]
      simp [replaceMD]
    rcases cs2 with _ | ⟨c3, cs3⟩
    · show (if (c = '.' && c2 = 'm' && ('.' : Char) = 'd') = true
          then rep ++ replaceMD rep ['m', 'd'] else c :: replaceMD rep [c2, '.', 'm', 'd'])
        = c :: c2 :: rep
      rw [if_neg (by simp)]
      show c :: (if (c2 = '.' && ('.' : Char) = 'm' && ('m' : Char) = 'd') = true
          then rep ++ replaceMD rep ['d'] else c2 :: replaceMD rep ['.', 'm', 'd'])
        = c :: c2 :: rep
      rw [if_neg (by simp)]
      simp [replaceMD]
    have hu : hasMD (c :: c2 :: c3 :: cs3)
        = ((c = '.' && c2 = 'm' && c3 = 'd') || hasMD (c2 :: c3 :: cs3)) := rfl
    rw [hu] at h
    have h1 := (Bool.or_eq_false_iff.mp h).1
    have h2 := (Bool.or_eq_false_iff.mp h).2
    show (if (c = '.' && c2 = 'm' && c3 = 'd') = true
        then rep ++ replaceMD rep (cs3 ++ ['.', 'm', 'd'])
        else c :: replaceMD rep (c2 :: c3 :: (cs3 ++ ['.', 'm', 'd'])))
      = c :: c2 :: c3 :: (cs3 ++ rep)
    rw [h1, if_neg (by simp)]
    have := ih h2
    simp only [List.cons_append] at this
    rw [this]

lemma replaceMDStr_no_occ (rep : String) {s : String} (h : hasMD s.data = false) :
    replaceMDStr rep s = s := by
  unfold replaceMDStr
  rw [replaceMD_no_occ _ _ h]

lemma replaceMDStr_stem_md (rep : String) {stem : String} (h : hasMD stem.data = false) :
    replaceMDStr rep (stem ++ ".md") = stem ++ rep := by
  unfold replaceMDStr
  have hd : (stem ++ ".md").data = stem.data ++ ['.', 'm', 'd'] := by
    rw [String.data_append]
  rw [hd, replaceMD_stem_md _ _ h]
  apply String.ext
  rw [String.data_append]

/-- Claim C5: the two slug derivations (main.py:473 and autoblog.py:165)
are idempotent, and every character of a derived slug is neither an
uppercase ASCII letter nor whitespace. -/
theorem claim_C5 : ∀ s : List Char,
    cleanSlug (cleanSlug s) = cleanSlug s ∧
    autoblogSlug (autoblogSlug s) = autoblogSlug s ∧
    (cleanSlug s).all (fun c => !(65 ≤ c.toNat && c.toNat ≤ 90) && !pySpace c) = true ∧
    (autoblogSlug s).all (fun c => !(65 ≤ c.toNat && c.toNat ≤ 90) && !pySpace c) = true := by
  intro s
  have hgood : ∀ (l : List Char), (∀ c ∈ l, slugKeep c = true) →
      l.all (fun c => !(65 ≤ c.toNat && c.toNat ≤ 90) && !pySpace c) = true := by
    intro l hl
    rw [List.all_eq_true]
    intro c hc
    rw [slugKeep_not_upper (hl c hc), slugKeep_not_pySpace (hl c hc)]
    rfl
  refine ⟨?_, ?_, hgood _ (cleanSlug_all_keep s), hgood _ (autoblogSlug_all_keep s)⟩
  · show (collapseGo pySpace '-' false ((cleanSlug s).map pyLowerC)).filter slugKeep = cleanSlug s
    rw [map_pyLowerC_id (cleanSlug_all_keep s)]
    rw [collapseGo_of_no _ (fun c hc => slugKeep_not_pySpace (cleanSlug_all_keep s c hc)) false]
    exact List.filter_eq_self.mpr (cleanSlug_all_keep s)
  · show collapseGo sOrDash '-' false (((autoblogSlug s).map pyLowerC).filter slugKeep)
        = autoblogSlug s
    rw [map_pyLowerC_id (autoblogSlug_all_keep s)]
    rw [List.filter_eq_self.mpr (autoblogSlug_all_keep s)]
    exact (collapseGo_idem (by decide) _).1

/-- Claim C9: the `slug` field of `ContentParser.parse` is the filename
with every (leftmost, non-overlapping) occurrence of `".md"` replaced by
`".html"`: a filename without `".md"` is returned verbatim (case and
punctuation preserved), a filename `stem ++ ".md"` becomes
`stem ++ ".html"`, and a `".md"` in the middle of the filename is replaced
as well. -/
theorem claim_C9 : ∀ (render : String → String) (isoValid : String → Bool)
    (now : String) (meta : FrontMeta) (body filename s stem : String),
    ((ContentParser.parse render isoValid now meta body filename).slug
        = replaceMDStr ".html" filename) ∧
    (hasMD s.data = false →
      (ContentParser.parse render isoValid now meta body s).slug = s) ∧
    (hasMD stem.data = false →
      (ContentParser.parse render isoValid now meta body (stem ++ ".md")).slug
        = stem ++ ".html") ∧
    ((ContentParser.parse render isoValid now meta body "AB.mdC.md").slug
        = "AB.htmlC.html") := by
  intro render isoValid now meta body filename s stem
  refine ⟨rfl, ?_, ?_, ?_⟩
  · intro h
    show replaceMDStr ".html" s = s
    exact replaceMDStr_no_occ _ h
  · intro h
    show replaceMDStr ".html" (stem ++ ".md") = stem ++ ".html"
    exact replaceMDStr_stem_md _ h
  · show replaceMDStr ".html" "AB.mdC.md" = "AB.htmlC.html"
    decide

/-- Witness for claim C9 at concrete inputs: a filename without `".md"`
is kept verbatim and an ordinary `stem.md` filename maps to `stem.html`. -/
theorem claim_C9_witness :
    hasMD "README.txt".data = false ∧
    (ContentParser.parse (fun b => b) (fun _ => true) "2024-01-01" {} ""
      "README.txt").slug = "README.txt" ∧
    (ContentParser.parse (fun b => b) (fun _ => true) "2024-01-01" {} ""
      ("Post" ++ ".md")).slug = "Post" ++ ".html" :=
  ⟨by decide,
   (claim_C9 (fun b => b) (fun _ => true) "2024-01-01" {} "" "README.txt" "README.txt"
     "Post").2.1 (by decide),
   (claim_C9 (fun b => b) (fun _ => true) "2024-01-01" {} "" "README.txt" "README.txt"
     "Post").2.2.1 (by decide)⟩

/-- Counterexample for claim C6 as stated: for the filename `"a.md.md"`
with no front-matter title, the default title is `"a"` (every occurrence
of `".md"` is removed by `filename.replace('.md', '')`), not the filename
without its `".md"` extension, which would be `"a.md"`. -/
theorem claim_C6_counterexample :
    (ContentParser.parse (fun _ => "") (fun _ => true) "2024-01-01T00:00:00" {} ""
      "a.md.md").title = "a" ∧ ("a" : String) ≠ "a.md" :=
  ⟨by decide, by decide⟩

/-- Claim C6 (amended): when a front-matter field is missing,
`ContentParser.parse` still returns a value, defaulting the title to the
filename with every occurrence of `".md"` removed (equal to the filename
without its extension whenever `".md"` occurs only as the extension), the
date to the current time, the tags to `[]`, and the summary to the first
200 characters of the rendered body followed by `"..."`. -/
theorem claim_C6 : ∀ (render : String → String) (isoValid : String → Bool)
    (now : String) (meta : FrontMeta) (body filename stem : String),
    (meta.title = none →
      (ContentParser.parse render isoValid now meta body filename).title
        = replaceMDStr "" filename) ∧
    (meta.title = none → hasMD stem.data = false →
      (ContentParser.parse render isoValid now meta body (stem ++ ".md")).title = stem) ∧
    (meta.date = none →
      (ContentParser.parse render isoValid now meta body filename).date = now) ∧
    (meta.tags = none →
      (ContentParser.parse render isoValid now meta body filename).tags = []) ∧
    (meta.summary = none →
      (ContentParser.parse render isoValid now meta body filename).summary
        = (render body).take 200 ++ "...") := by
  intro render isoValid now meta body filename stem
  refine ⟨?_, ?_, ?_, ?_, ?_⟩
  · intro h
    simp [ContentParser.parse, h]
  · intro h hstem
    simp only [ContentParser.parse, h, Option.getD_none]
    rw [replaceMDStr_stem_md _ hstem]
    exact String.append_empty stem
  · intro h
    simp only [ContentParser.parse, h, Option.getD_none]
    split <;> rfl
  · intro h
    simp [ContentParser.parse, h]
  · intro h
    simp [ContentParser.parse, h]

/-- Witness for claim C6 (amended) at concrete inputs: all four defaults
evaluated for an empty front matter. -/
theorem claim_C6_witness :
    (ContentParser.parse (fun _ => "B") (fun _ => true) "2024-01-01" {} "x"
      ("post" ++ ".md")).title = "post" ∧
    (ContentParser.parse (fun _ => "B") (fun _ => true) "2024-01-01" {} "x"
      "f.md").date = "2024-01-01" ∧
    (ContentParser.parse (fun _ => "B") (fun _ => true) "2024-01-01" {} "x"
      "f.md").tags = [] ∧
    (ContentParser.parse (fun _ => "B") (fun _ => true) "2024-01-01" {} "x"
      "f.md").summary = ("B" : String).take 200 ++ "..." :=
  ⟨(claim_C6 (fun _ => "B") (fun _ => true) "2024-01-01" {} "x" "f.md" "post").2.1
      rfl (by decide),
   (claim_C6 (fun _ => "B") (fun _ => true) "2024-01-01" {} "x" "f.md" "post").2.2.1 rfl,
   (claim_C6 (fun _ => "B") (fun _ => true) "2024-01-01" {} "x" "f.md" "post").2.2.2.1 rfl,
   (claim_C6 (fun _ => "B") (fun _ => true) "2024-01-01" {} "x" "f.md" "post").2.2.2.2 rfl⟩

/-- Claim C10: a front-matter date that is present but rejected by
`datetime.fromisoformat` never makes `ContentParser.parse` fail: the bare
`except` replaces it by the current time. -/
theorem claim_C10 : ∀ (render : String → String) (isoValid : String → Bool)
    (now : String) (meta : FrontMeta) (body filename d : String),
    meta.date = some d → isoValid d = false →
    (ContentParser.parse render isoValid now meta body filename).date = now := by
  intro render isoValid now meta body filename d hd hv
  simp [ContentParser.parse, hd, hv]

/-- Witness for claim C10 at a concrete unparseable date. -/
theorem claim_C10_witness :
    (ContentParser.parse (fun _ => "") (fun _ => false) "NOW"
      { date := some "garbage" } "" "f.md").date = "NOW" :=
  claim_C10 (fun _ => "") (fun _ => false) "NOW" { date := some "garbage" } "" "f.md"
    "garbage" rfl rfl

/- ### Provider-fallback helper lemmas -/

lemma mac_first : ∀ (pre : List (Option String)) (t : String) (suf : List (Option String)),
    (∀ o ∈ pre, o = none) →
    MultiAIClient.generate (pre ++ some t :: suf) = Except.ok t := by
  intro pre
  induction pre with
  | nil => intro t suf _; rfl
  | cons o os ih =>
    intro t suf h
    have ho : o = none := h o (by simp)
    subst ho
    show MultiAIClient.generate (os ++ some t :: suf) = Except.ok t
    exact ih t suf (fun x hx => h x (by simp [hx]))

lemma mac_all_none : ∀ ps : List (Option String), (∀ o ∈ ps, o = none) →
    MultiAIClient.generate ps = Except.error "Todas las IAs fallaron" := by
  intro ps
  induction ps with
  | nil => intro _; rfl
  | cons o os ih =>
    intro h
    have ho : o = none := h o (by simp)
    subst ho
    show MultiAIClient.generate os = Except.error "Todas las IAs fallaron"
    exact ih (fun x hx => h x (by simp [hx]))

lemma mpLoop_toOption (c : MPClients) : ∀ (ms : List String) (le : Option String),
    (mpLoop c le ms).toOption
      = (MultiAIClient.generate (ms.filterMap c.lookup)).toOption := by
  intro ms
  induction ms with
  | nil => intro le; rfl
  | cons m ms ih =>
    intro le
    cases hl : c.lookup m with
    | none =>
      simp only [mpLoop, hl, List.filterMap_cons]
      exact ih le
    | some o =>
      cases o with
      | some t => simp only [mpLoop, hl, List.filterMap_cons]; rfl
      | none =>
        simp only [mpLoop, hl, List.filterMap_cons]
        show (mpLoop c (some m) ms).toOption
          = (MultiAIClient.generate (ms.filterMap c.lookup)).toOption
        exact ih (some m)

lemma mpLoop_error_all (c : MPClients) : ∀ (ms : List String) (le e : Option String),
    mpLoop c le ms = Except.error e →
    ∀ m ∈ ms, ∀ o, c.lookup m = some o → o = none := by
  intro ms
  induction ms with
  | nil => intro le e _ m hm; simp at hm
  | cons m' ms ih =>
    intro le e hrun m hm o hlo
    cases hl : c.lookup m' with
    | none =>
      have hrun' : mpLoop c le ms = Except.error e := by simpa [mpLoop, hl] using hrun
      rcases List.mem_cons.mp hm with rfl | hm'
      · rw [hl] at hlo; cases hlo
      · exact ih le e hrun' m hm' o hlo
    | some o' =>
      cases o' with
      | some t => simp [mpLoop, hl] at hrun
      | none =>
        have hrun' : mpLoop c (some m') ms = Except.error e := by
          simpa [mpLoop, hl] using hrun
        rcases List.mem_cons.mp hm with rfl | hm'
        · rw [hl] at hlo
          injection hlo with h
          exact h.symm
        · exact ih (some m') e hrun' m hm' o hlo

lemma mem_if_append {α : Type} {a : α} {b : Bool} {p q : List α} (h : a ∈ p) :
    a ∈ (if b then p ++ q else p) := by
  split
  · exact List.mem_append_left _ h
  · exact h

lemma gemini_mem_priorityList {preferred : String} {c : MPClients}
    (h : c.gemini.isSome = true) : "gemini" ∈ priorityList preferred c := by
  unfold priorityList
  apply mem_if_append
  apply mem_if_append
  by_cases hc : [preferred].contains "gemini" = true
  · exact mem_if_append (by simpa using hc)
  · have hcf : [preferred].contains "gemini" = false := by simpa using hc
    rw [if_pos (by rw [h, hcf]; rfl)]
    exact List.mem_append_right _ (by simp)

lemma openai_mem_priorityList {preferred : String} {c : MPClients}
    (h : c.openai.isSome = true) : "openai" ∈ priorityList preferred c := by
  unfold priorityList
  apply mem_if_append
  by_cases hc : (if c.gemini.isSome && !([preferred].contains "gemini")
      then [preferred] ++ ["gemini"] else [preferred]).contains "openai" = true
  · exact mem_if_append (by simpa using hc)
  · have hcf := eq_false_of_ne_true hc
    rw [if_pos (by rw [h, hcf]; rfl)]
    exact List.mem_append_right _ (by simp)

lemma anthropic_mem_priorityList {preferred : String} {c : MPClients}
    (h : c.anthropic.isSome = true) : "anthropic" ∈ priorityList preferred c := by
  unfold priorityList
  by_cases hc : (if c.openai.isSome && !((if c.gemini.isSome && !([preferred].contains "gemini")
      then [preferred] ++ ["gemini"] else [preferred]).contains "openai")
      then (if c.gemini.isSome && !([preferred].contains "gemini")
        then [preferred] ++ ["gemini"] else [preferred]) ++ ["openai"]
      else (if c.gemini.isSome && !([preferred].contains "gemini")
        then [preferred] ++ ["gemini"] else [preferred])).contains "anthropic" = true
  · exact mem_if_append (by simpa using hc)
  · have hcf := eq_false_of_ne_true hc
    rw [if_pos (by rw [h, hcf]; rfl)]
    exact List.mem_append_right _ (by simp)

/-- Claim C1: both fallback loops return the output of the first provider
whose call succeeds, advance past a provider only when its call fails
(earlier providers in the order all failed), and raise a final failure
only once every configured provider has failed: `MultiAIClient.generate`
over its priority-ordered provider list, and `MultiAIProvider.generate`
over its priority list resolved through the clients dictionary (an error
implies every configured client failed). -/
theorem claim_C1 : ∀ (pre suf ps : List (Option String)) (t preferred : String)
    (c : MPClients) (e : Option String),
    ((∀ o ∈ pre, o = none) →
      MultiAIClient.generate (pre ++ some t :: suf) = Except.ok t) ∧
    ((∀ o ∈ ps, o = none) →
      MultiAIClient.generate ps = Except.error "Todas las IAs fallaron") ∧
    ((∀ o ∈ pre, o = none) → resolvedOutcomes preferred c = pre ++ some t :: suf →
      MultiAIProvider.generate preferred c = Except.ok t) ∧
    (MultiAIProvider.generate preferred c = Except.error e →
      (∀ o, c.gemini = some o → o = none) ∧
      (∀ o, c.openai = some o → o = none) ∧
      (∀ o, c.anthropic = some o → o = none)) := by
  intro pre suf ps t preferred c e
  refine ⟨mac_first pre t suf, mac_all_none ps, ?_, ?_⟩
  · intro hpre hres
    have h1 : (MultiAIProvider.generate preferred c).toOption = some t := by
      unfold MultiAIProvider.generate
      rw [mpLoop_toOption]
      rw [show (priorityList preferred c).filterMap c.lookup
          = resolvedOutcomes preferred c from rfl]
      rw [hres, mac_first pre t suf hpre]
      rfl
    cases hgen : MultiAIProvider.generate preferred c with
    | ok t' =>
      rw [hgen] at h1
      simp only [Except.toOption, Option.some.injEq] at h1
      rw [h1]
    | error e' =>
      rw [hgen] at h1
      simp [Except.toOption] at h1
  · intro herr
    have hall := mpLoop_error_all c (priorityList preferred c) none e herr
    refine ⟨?_, ?_, ?_⟩
    · intro o ho
      have hmem : "gemini" ∈ priorityList preferred c :=
        gemini_mem_priorityList (by rw [ho]; rfl)
      have hlk : c.lookup "gemini" = some o := by
        simp [MPClients.lookup, ho]
      exact hall "gemini" hmem o hlk
    · intro o ho
      have hmem : "openai" ∈ priorityList preferred c :=
        openai_mem_priorityList (by rw [ho]; rfl)
      have hlk : c.lookup "openai" = some o := by
        simp [MPClients.lookup, ho]
      exact hall "openai" hmem o hlk
    · intro o ho
      have hmem : "anthropic" ∈ priorityList preferred c :=
        anthropic_mem_priorityList (by rw [ho]; rfl)
      have hlk : c.lookup "anthropic" = some o := by
        simp [MPClients.lookup, ho]
      exact hall "anthropic" hmem o hlk

/-- Witness for claim C1 at concrete inputs: the first failing provider is
skipped and the second one's text is returned; an all-failing list raises;
a non-client preferred name is skipped and the fallback succeeds through
the resolved priority list. -/
theorem claim_C1_witness :
    MultiAIClient.generate [none, some "hi", none] = Except.ok "hi" ∧
    MultiAIClient.generate [none, none] = Except.error "Todas las IAs fallaron" ∧
    MultiAIProvider.generate "z" ⟨some none, some (some "gpt"), none⟩ = Except.ok "gpt" :=
  ⟨(claim_C1 [none] [none] [] "hi" "z" ⟨none, none, none⟩ none).1
      (by intro o ho; simpa using ho),
   (claim_C1 [] [] [none, none] "hi" "z" ⟨none, none, none⟩ none).2.1
      (by intro o ho; simpa using ho),
   (claim_C1 [none] [] [] "gpt" "z" ⟨some none, some (some "gpt"), none⟩ none).2.2.1
      (by intro o ho; simpa using ho) (by decide)⟩

/- ### File-loop helper lemmas -/

lemma scanFiles_warnings (fetch : String → Option String)
    (pR : String → String → Option PostData) :
    ∀ files, (scanFiles fetch pR files).2 = [] := by
  intro files
  induction files with
  | nil => rfl
  | cons nu rest ih =>
    obtain ⟨name, url⟩ := nu
    simp only [scanFiles]
    split
    · cases hf : (fetch url).bind (fun raw => pR raw name) with
      | none => exact ih
      | some p => exact ih
    · exact ih

lemma scanFiles_append (fetch : String → Option String)
    (pR : String → String → Option PostData) :
    ∀ l₁ l₂, (scanFiles fetch pR (l₁ ++ l₂)).1
      = (scanFiles fetch pR l₁).1 ++ (scanFiles fetch pR l₂).1 := by
  intro l₁ l₂
  induction l₁ with
  | nil => rfl
  | cons nu rest ih =>
    obtain ⟨name, url⟩ := nu
    show (scanFiles fetch pR ((name, url) :: (rest ++ l₂))).1 = _
    simp only [scanFiles]
    split
    · cases hf : (fetch url).bind (fun raw => pR raw name) with
      | none => exact ih
      | some p => simpa using ih
    · exact ih

lemma scanFiles_eq_filterMap (fetch : String → Option String)
    (pR : String → String → Option PostData) :
    ∀ files, (scanFiles fetch pR files).1
      = files.filterMap (fun nu =>
          if List.isSuffixOf ".md".data nu.1.data
          then (fetch nu.2).bind (fun raw => pR raw nu.1) else none) := by
  intro files
  induction files with
  | nil => rfl
  | cons nu rest ih =>
    obtain ⟨name, url⟩ := nu
    simp only [scanFiles, List.filterMap_cons]
    split
    · cases hf : (fetch url).bind (fun raw => pR raw name) with
      | none => simpa [hf] using ih
      | some p => simpa [hf] using ih
    · simpa using ih

/-- Claim C7 (amended): the build file loop of main.py lines 526–534
produces exactly the posts of the `.md` files whose fetch and parse
succeed, in listing order; a file whose fetch or parse raises is skipped
silently (the loop logs no warning), and the files after it are still
processed (the loop result over `l₁ ++ l₂` is the concatenation of the
results over `l₁` and `l₂`). -/
theorem claim_C7 : ∀ (fetch : String → Option String)
    (pR : String → String → Option PostData)
    (files l₁ l₂ : List (String × String)),
    ((scanFiles fetch pR files).1
      = files.filterMap (fun nu =>
          if List.isSuffixOf ".md".data nu.1.data
          then (fetch nu.2).bind (fun raw => pR raw nu.1) else none)) ∧
    ((scanFiles fetch pR (l₁ ++ l₂)).1
      = (scanFiles fetch pR l₁).1 ++ (scanFiles fetch pR l₂).1) ∧
    ((scanFiles fetch pR files).2 = []) :=
  fun fetch pR files l₁ l₂ =>
    ⟨scanFiles_eq_filterMap fetch pR files, scanFiles_append fetch pR l₁ l₂,
     scanFiles_warnings fetch pR files⟩

/-- Counterexample for claim C7 as stated: at a listing where the first
file's parse raises, the loop of main.py lines 526–534 produces the posts
of the remaining files but logs no warning at all (the `except` clause is
a bare `continue`), contradicting the claimed warning. -/
theorem claim_C7_counterexample :
    scanFiles (fun u => if u = "u1" then some "x" else some "y")
        (fun raw _ => if raw = "x" then none
          else some ⟨"T", "2024-01-01T00:00:00", "good.html", "c", "s", []⟩)
        [("bad.md", "u1"), ("good.md", "u2")]
      = ([⟨"T", "2024-01-01T00:00:00", "good.html", "c", "s", []⟩], []) ∧
    (if ("x" : String) = "x" then none
      else some (⟨"T", "2024-01-01T00:00:00", "good.html", "c", "s", []⟩ : PostData))
      = none :=
  ⟨by decide, by decide⟩

/-- Claim C2: contrary to the specification, `build_site` consults the
per-site state nowhere: at a listing containing only a file recorded in
the state as already processed (with `last_build` recorded and the stored
content unchanged since then), the file is fetched, re-parsed and
re-rendered anyway, and the post list is the same for every state value.
The state of main.py holds no version identifiers at all
(`processed_files` and `last_build` only), so no skipping can occur. -/
theorem claim_C2 :
    ((buildSite ⟨["a.md"], some "2024-01-01T00:00:00"⟩ "2024-02-02T00:00:00" ""
        (fun _ => some "raw")
        (fun _ _ => some ⟨"A", "2024-01-01T00:00:00", "a.html", "c", "s", []⟩)
        (fun _ => UpOutcome.ok) [("a.md", "u")]).posts
      = [⟨"A", "2024-01-01T00:00:00", "a.html", "c", "s", []⟩]) ∧
    ((buildSite ⟨["a.md"], some "2024-01-01T00:00:00"⟩ "2024-02-02T00:00:00" ""
        (fun _ => some "raw")
        (fun _ _ => some ⟨"A", "2024-01-01T00:00:00", "a.html", "c", "s", []⟩)
        (fun _ => UpOutcome.ok) [("a.md", "u")]).attempts
      = ["index.html", "a.html", "sitemap.xml", "rss.xml"]) ∧
    (∀ s : MainState,
      (buildSite s "2024-02-02T00:00:00" ""
        (fun _ => some "raw")
        (fun _ _ => some ⟨"A", "2024-01-01T00:00:00", "a.html", "c", "s", []⟩)
        (fun _ => UpOutcome.ok) [("a.md", "u")]).posts
      = [⟨"A", "2024-01-01T00:00:00", "a.html", "c", "s", []⟩]) :=
  ⟨by decide, by decide, fun s => rfl⟩

/- ### Deploy-phase helper lemmas -/

lemma deployPosts_halted (upload : String → UpOutcome) (domain : String) :
    ∀ ps : List PostData, (deployPosts upload domain ps).2.2
      = ps.any (fun p => decide (upload (postPath domain p) = UpOutcome.exc)) := by
  intro ps
  induction ps with
  | nil => rfl
  | cons p ps ih =>
    simp only [deployPosts, List.any_cons]
    cases hu : upload (postPath domain p) with
    | exc => simp [hu]
    | ok => simp [hu, ih]
    | httpErr => simp [hu, ih]

lemma deployPosts_uploaded (upload : String → UpOutcome) (domain : String) :
    ∀ ps : List PostData, (deployPosts upload domain ps).2.1
      = (deployPosts upload domain ps).1.filter (fun q => decide (upload q = UpOutcome.ok)) := by
  intro ps
  induction ps with
  | nil => rfl
  | cons p ps ih =>
    simp only [deployPosts]
    cases hu : upload (postPath domain p) with
    | exc => simp [List.filter, hu]
    | ok => simp [List.filter, hu, ih]
    | httpErr => simp [List.filter, hu, ih]

lemma deployPosts_stop (upload : String → UpOutcome) (domain : String) :
    ∀ (l₁ : List PostData) (p : PostData) (l₂ : List PostData),
      (∀ q ∈ l₁, upload (postPath domain q) ≠ UpOutcome.exc) →
      upload (postPath domain p) = UpOutcome.exc →
      (deployPosts upload domain (l₁ ++ p :: l₂)).1
        = l₁.map (postPath domain) ++ [postPath domain p] := by
  intro l₁
  induction l₁ with
  | nil =>
    intro p l₂ _ hp
    simp only [List.nil_append, deployPosts, hp, List.map_nil]
  | cons q qs ih =>
    intro p l₂ hq hp
    have hq0 : upload (postPath domain q) ≠ UpOutcome.exc := hq q (by simp)
    simp only [List.cons_append, deployPosts]
    cases hu : upload (postPath domain q) with
    | exc => exact absurd hu hq0
    | ok =>
      simp only [List.map_cons, List.cons_append, List.append_eq]
      rw [ih p l₂ (fun x hx => hq x (by simp [hx])) hp]
    | httpErr =>
      simp only [List.map_cons, List.cons_append, List.append_eq]
      rw [ih p l₂ (fun x hx => hq x (by simp [hx])) hp]

/- ### buildSite branch lemmas -/

lemma buildSite_empty {state : MainState} {now domain : String}
    {fetch : String → Option String} {pR : String → String → Option PostData}
    {upload : String → UpOutcome} {files : List (String × String)}
    (h : (scanFiles fetch pR files).1.isEmpty = true) :
    buildSite state now domain fetch pR upload files
      = ⟨[], [], [], false, state, (scanFiles fetch pR files).2⟩ := by
  simp only [buildSite]
  rw [if_pos h]

lemma buildSite_index_exc {state : MainState} {now domain : String}
    {fetch : String → Option String} {pR : String → String → Option PostData}
    {upload : String → UpOutcome} {files : List (String × String)}
    (hemp : (scanFiles fetch pR files).1.isEmpty = false)
    (hidx : upload "index.html" = UpOutcome.exc) :
    buildSite state now domain fetch pR upload files
      = ⟨(scanFiles fetch pR files).1, ["index.html"], [], false, state,
          (scanFiles fetch pR files).2⟩ := by
  simp only [buildSite]
  rw [if_neg (by simp [hemp]), if_pos hidx]

lemma buildSite_post_exc {state : MainState} {now domain : String}
    {fetch : String → Option String} {pR : String → String → Option PostData}
    {upload : String → UpOutcome} {files : List (String × String)}
    (hemp : (scanFiles fetch pR files).1.isEmpty = false)
    (hidx : upload "index.html" ≠ UpOutcome.exc)
    (hhalt : (deployPosts upload domain (sortPosts (scanFiles fetch pR files).1)).2.2 = true) :
    buildSite state now domain fetch pR upload files
      = ⟨(scanFiles fetch pR files).1,
          "index.html" :: (deployPosts upload domain
            (sortPosts (scanFiles fetch pR files).1)).1,
          (if upload "index.html" = UpOutcome.ok then ["index.html"] else []) ++
            (deployPosts upload domain (sortPosts (scanFiles fetch pR files).1)).2.1,
          false, state, (scanFiles fetch pR files).2⟩ := by
  simp only [buildSite]
  rw [if_neg (by simp [hemp]), if_neg hidx, if_pos hhalt]

lemma buildSite_seo {state : MainState} {now domain : String}
    {fetch : String → Option String} {pR : String → String → Option PostData}
    {upload : String → UpOutcome} {files : List (String × String)}
    (hemp : (scanFiles fetch pR files).1.isEmpty = false)
    (hidx : upload "index.html" ≠ UpOutcome.exc)
    (hhalt : (deployPosts upload domain (sortPosts (scanFiles fetch pR files).1)).2.2 = false) :
    buildSite state now domain fetch pR upload files
      = ⟨(scanFiles fetch pR files).1,
          "index.html" :: (deployPosts upload domain
            (sortPosts (scanFiles fetch pR files).1)).1 ++
            (if upload "sitemap.xml" = UpOutcome.exc then ["sitemap.xml"]
              else ["sitemap.xml", "rss.xml"]),
          (if upload "index.html" = UpOutcome.ok then ["index.html"] else []) ++
            (deployPosts upload domain (sortPosts (scanFiles fetch pR files).1)).2.1 ++
            ((if upload "sitemap.xml" = UpOutcome.ok then ["sitemap.xml"] else []) ++
             (if upload "sitemap.xml" ≠ UpOutcome.exc ∧ upload "rss.xml" = UpOutcome.ok
               then ["rss.xml"] else [])),
          true, { state with last_build := some now }, (scanFiles fetch pR files).2⟩ := by
  simp only [buildSite]
  rw [if_neg (by simp [hemp]), if_neg hidx, if_neg (by simp [hhalt])]

/-- Claim C4 (amended): during `build_site`, an upload that raises an
exception while deploying the index or a post page aborts the build at
that point — the attempted uploads stop there and the state file is not
rewritten — but an upload failing with an HTTP error status (where
`create_file` returns `False` without raising) does not stop the build,
and an exception while uploading the sitemap or RSS file is caught with a
warning, after which the state file is still updated with a new
`last_build` timestamp.  Files uploaded before a failure remain uploaded:
the successful uploads are exactly the attempted paths whose outcome is
`ok`. -/
theorem claim_C4 : ∀ (state : MainState) (now domain : String)
    (fetch : String → Option String) (pR : String → String → Option PostData)
    (upload : String → UpOutcome) (files : List (String × String))
    (l₁ l₂ : List PostData) (p : PostData),
    ((buildSite state now domain fetch pR upload files).savedState
      = (!(scanFiles fetch pR files).1.isEmpty
         && !(decide (upload "index.html" = UpOutcome.exc))
         && !((sortPosts (scanFiles fetch pR files).1).any
              (fun q => decide (upload (postPath domain q) = UpOutcome.exc))))) ∧
    ((buildSite state now domain fetch pR upload files).finalState
      = (if (buildSite state now domain fetch pR upload files).savedState
          then { state with last_build := some now } else state)) ∧
    ((buildSite state now domain fetch pR upload files).uploaded
      = (buildSite state now domain fetch pR upload files).attempts.filter
          (fun q => decide (upload q = UpOutcome.ok))) ∧
    ((scanFiles fetch pR files).1.isEmpty = false → upload "index.html" = UpOutcome.exc →
      (buildSite state now domain fetch pR upload files).attempts = ["index.html"]) ∧
    ((scanFiles fetch pR files).1.isEmpty = false → upload "index.html" ≠ UpOutcome.exc →
      sortPosts (scanFiles fetch pR files).1 = l₁ ++ p :: l₂ →
      (∀ q ∈ l₁, upload (postPath domain q) ≠ UpOutcome.exc) →
      upload (postPath domain p) = UpOutcome.exc →
      (buildSite state now domain fetch pR upload files).attempts
        = "index.html" :: (l₁.map (postPath domain) ++ [postPath domain p])) := by
  intro state now domain fetch pR upload files l₁ l₂ p
  by_cases hemp : (scanFiles fetch pR files).1.isEmpty = true
  · rw [buildSite_empty hemp]
    refine ⟨by simp [hemp], rfl, rfl, ?_, ?_⟩
    · intro h1 _
      simp [h1] at hemp
    · intro h1 _ _ _ _
      simp [h1] at hemp
  · have hemp' : (scanFiles fetch pR files).1.isEmpty = false := eq_false_of_ne_true hemp
    by_cases hidx : upload "index.html" = UpOutcome.exc
    · rw [buildSite_index_exc hemp' hidx]
      refine ⟨by simp [hemp', hidx], rfl, by simp [List.filter, hidx], fun _ _ => rfl, ?_⟩
      intro _ h2 _ _ _
      exact absurd hidx h2
    · by_cases hhalt : (deployPosts upload domain
          (sortPosts (scanFiles fetch pR files).1)).2.2 = true
      · rw [buildSite_post_exc hemp' hidx hhalt]
        refine ⟨?_, rfl, ?_, ?_, ?_⟩
        · rw [← deployPosts_halted]
          simp [hhalt]
        · rw [deployPosts_uploaded]
          cases hu : upload "index.html" with
          | exc => exact absurd hu hidx
          | ok => simp [List.filter_cons, hu]
          | httpErr => simp [List.filter_cons, hu]
        · intro _ h2
          exact absurd h2 hidx
        · intro _ _ hdec hnoexc hpexc
          have hstop := deployPosts_stop upload domain l₁ p l₂ hnoexc hpexc
          show "index.html" :: (deployPosts upload domain
              (sortPosts (scanFiles fetch pR files).1)).1 = _
          rw [hdec, hstop]
      · have hhalt' : (deployPosts upload domain
            (sortPosts (scanFiles fetch pR files).1)).2.2 = false := eq_false_of_ne_true hhalt
        rw [buildSite_seo hemp' hidx hhalt']
        refine ⟨?_, rfl, ?_, ?_, ?_⟩
        · rw [← deployPosts_halted]
          simp [hemp', hhalt', hidx]
        · rw [deployPosts_uploaded]
          cases hu1 : upload "index.html" with
          | exc => exact absurd hu1 hidx
          | ok =>
            cases hu2 : upload "sitemap.xml" with
            | exc => simp [List.filter_cons, List.filter_append, hu1, hu2]
            | ok =>
              cases hu3 : upload "rss.xml" with
              | exc => simp [List.filter_cons, List.filter_append, hu1, hu2, hu3]
              | ok => simp [List.filter_cons, List.filter_append, hu1, hu2, hu3]
              | httpErr => simp [List.filter_cons, List.filter_append, hu1, hu2, hu3]
            | httpErr =>
              cases hu3 : upload "rss.xml" with
              | exc => simp [List.filter_cons, List.filter_append, hu1, hu2, hu3]
              | ok => simp [List.filter_cons, List.filter_append, hu1, hu2, hu3]
              | httpErr => simp [List.filter_cons, List.filter_append, hu1, hu2, hu3]
          | httpErr =>
            cases hu2 : upload "sitemap.xml" with
            | exc => simp [List.filter_cons, List.filter_append, hu1, hu2]
            | ok =>
              cases hu3 : upload "rss.xml" with
              | exc => simp [List.filter_cons, List.filter_append, hu1, hu2, hu3]
              | ok => simp [List.filter_cons, List.filter_append, hu1, hu2, hu3]
              | httpErr => simp [List.filter_cons, List.filter_append, hu1, hu2, hu3]
            | httpErr =>
              cases hu3 : upload "rss.xml" with
              | exc => simp [List.filter_cons, List.filter_append, hu1, hu2, hu3]
              | ok => simp [List.filter_cons, List.filter_append, hu1, hu2, hu3]
              | httpErr => simp [List.filter_cons, List.filter_append, hu1, hu2, hu3]
        · intro _ h2
          exact absurd h2 hidx
        · intro _ _ hdec _ hpexc
          exfalso
          rw [deployPosts_halted, hdec] at hhalt'
          simp [List.any_append, hpexc] at hhalt'

/-- Witness for claim C4 (amended) at concrete inputs: an exception on the
single post page stops the attempts right after it, and an exception on
the index stops them at the index. -/
theorem claim_C4_witness :
    (buildSite initialMainState "N" "" (fun _ => some "r")
      (fun _ _ => some ⟨"A", "2024-01-01T00:00:00", "a.html", "c", "s", []⟩)
      (fun q => if q = "a.html" then UpOutcome.exc else UpOutcome.ok)
      [("a.md", "u")]).attempts = ["index.html", "a.html"] ∧
    (buildSite initialMainState "N" "" (fun _ => some "r")
      (fun _ _ => some ⟨"A", "2024-01-01T00:00:00", "a.html", "c", "s", []⟩)
      (fun _ => UpOutcome.exc) [("a.md", "u")]).attempts = ["index.html"] :=
  ⟨(claim_C4 initialMainState "N" "" (fun _ => some "r")
      (fun _ _ => some ⟨"A", "2024-01-01T00:00:00", "a.html", "c", "s", []⟩)
      (fun q => if q = "a.html" then UpOutcome.exc else UpOutcome.ok)
      [("a.md", "u")] [] [] ⟨"A", "2024-01-01T00:00:00", "a.html", "c", "s", []⟩).2.2.2.2
      (by decide) (by decide) (by decide) (by simp) (by decide),
   (claim_C4 initialMainState "N" "" (fun _ => some "r")
      (fun _ _ => some ⟨"A", "2024-01-01T00:00:00", "a.html", "c", "s", []⟩)
      (fun _ => UpOutcome.exc) [("a.md", "u")] [] []
      ⟨"A", "2024-01-01T00:00:00", "a.html", "c", "s", []⟩).2.2.2.1
      (by decide) rfl⟩

/-- Counterexample for claim C4 as stated: an exception while uploading
`sitemap.xml` is a failed production upload, yet the build does not stop
there and the per-site state is still rewritten with a fresh `last_build`;
and an index upload failing with an HTTP error status does not stop the
build either — every remaining file is still uploaded. -/
theorem claim_C4_counterexample :
    ((buildSite initialMainState "2024-02-02T00:00:00" ""
        (fun _ => some "raw")
        (fun _ _ => some ⟨"A", "2024-01-01T00:00:00", "a.html", "c", "s", []⟩)
        (fun q => if q = "sitemap.xml" then UpOutcome.exc else UpOutcome.ok)
        [("a.md", "u")]).savedState = true) ∧
    ((buildSite initialMainState "2024-02-02T00:00:00" ""
        (fun _ => some "raw")
        (fun _ _ => some ⟨"A", "2024-01-01T00:00:00", "a.html", "c", "s", []⟩)
        (fun q => if q = "sitemap.xml" then UpOutcome.exc else UpOutcome.ok)
        [("a.md", "u")]).finalState.last_build = some "2024-02-02T00:00:00") ∧
    ((fun q => if q = "sitemap.xml" then UpOutcome.exc else UpOutcome.ok) "sitemap.xml"
      = UpOutcome.exc) ∧
    ((buildSite initialMainState "2024-02-02T00:00:00" ""
        (fun _ => some "raw")
        (fun _ _ => some ⟨"A", "2024-01-01T00:00:00", "a.html", "c", "s", []⟩)
        (fun q => if q = "index.html" then UpOutcome.httpErr else UpOutcome.ok)
        [("a.md", "u")]).attempts = ["index.html", "a.html", "sitemap.xml", "rss.xml"]) ∧
    ((buildSite initialMainState "2024-02-02T00:00:00" ""
        (fun _ => some "raw")
        (fun _ _ => some ⟨"A", "2024-01-01T00:00:00", "a.html", "c", "s", []⟩)
        (fun q => if q = "index.html" then UpOutcome.httpErr else UpOutcome.ok)
        [("a.md", "u")]).savedState = true) := by
  refine ⟨by decide, by decide, by decide, by decide, by decide⟩

/-- Counterexample for claim C3 as stated: the upload performed by
`AutoBlogEngine.generate_content` (autoblog.py lines 174–177) builds its
PUT body without ever consulting the target path, so even when the path
already exists the body carries no prior version identifier. -/
theorem claim_C3_counterexample :
    (generateContentBody "en" "Hello").sha = none ∧
    (generateContentBody "es" "Hola").sha = none :=
  ⟨rfl, rfl⟩

/-- Claim C3 (amended): uploads through `GitHubManager.create_file` send a
JSON body with the commit message, the base64-encoded content, and — when
the GET of the target path returned an existing file with a non-empty
`sha` — that prior version identifier; when the path does not exist no
`sha` is sent.  The direct upload in autoblog.py `generate_content`,
however, sends only a message and base64 content and never a `sha`, even
for an existing path. -/
theorem claim_C3 : ∀ (msg content s branch lang article : String),
    ((GitHubManager.createFileBody msg content (some s) branch).sha
      = (if s = "" then none else some s)) ∧
    ((GitHubManager.createFileBody msg content none branch).sha = none) ∧
    ((GitHubManager.createFileBody msg content (some s) branch).message = msg) ∧
    ((GitHubManager.createFileBody msg content (some s) branch).content
      = b64encode content) ∧
    ((generateContentBody lang article).sha = none) ∧
    ((generateContentBody lang article).content = b64encode article) ∧
    ((generateContentBody lang article).message = "cms: add " ++ lang ++ " content") :=
  fun _ _ _ _ _ _ =>
    ⟨rfl, rfl, rfl, rfl, rfl, rfl, rfl⟩

/-- Counterexample for claim C8 as stated: no single entry point accepts
all six flags — main.py's parser rejects `--incremental` and autoblog.py's
parser rejects `--blog`, `--list` and `--all`. -/
theorem claim_C8_counterexample :
    ("--incremental" ∈ mainPyFlags → False) ∧
    ("--blog" ∈ autoblogPyFlags → False) ∧
    ((∀ f ∈ specFlags, f ∈ mainPyFlags) → False) ∧
    ((∀ f ∈ specFlags, f ∈ autoblogPyFlags) → False) := by
  refine ⟨by decide, by decide, ?_, ?_⟩
  · intro h
    exact absurd (h "--incremental" (by decide)) (by decide)
  · intro h
    exact absurd (h "--blog" (by decide)) (by decide)

/-- Claim C8 (amended): the two entry points together cover the six
specified flags — main.py registers exactly `--blog`, `--list`, `--fetch`,
`--build`, `--all` and autoblog.py registers exactly `--fetch`, `--build`,
`--incremental` — but neither registers all six: main.py lacks
`--incremental` and autoblog.py lacks `--all`, `--blog` and `--list`. -/
theorem claim_C8 :
    specFlags.all (fun f => mainPyFlags.contains f || autoblogPyFlags.contains f) = true ∧
    mainPyFlags = ["--blog", "--list", "--fetch", "--build", "--all"] ∧
    autoblogPyFlags = ["--fetch", "--build", "--incremental"] ∧
    mainPyFlags.contains "--incremental" = false ∧
    autoblogPyFlags.contains "--all" = false ∧
    autoblogPyFlags.contains "--blog" = false ∧
    autoblogPyFlags.contains "--list" = false := by
  refine ⟨by decide, rfl, rfl, by decide, by decide, by decide, by decide⟩
